import Mathlib

/-!
Verification of the `stj_search` repository (sync engine + query layer).

The Python sources under `src/stj_search/` are shallowly embedded below:
pure functions become Lean functions, the SQLite store becomes an explicit
state value, raised exceptions become `Option`/`Except` results, and the
per-resource orchestration loop of `sync.py` becomes explicit state-passing
recursion.  External collaborators (SQLite, FTS5, the HTTP client) are
modelled by their documented semantics at exactly the points the code relies
on them; each such modelling decision is recorded in a doc comment on the
definition.
-/

/- ===================== ASCII / SQLite string helpers ===================== -/

/-- ASCII upper-casing of one character.  Models both Python `str.upper`
restricted to ASCII input (the only inputs the code feeds it: format tags
such as `"json"`, `"zip"`) and the ASCII folding SQLite applies inside
`LIKE`. -/
def asciiUpperChar (c : Char) : Char :=
  if 'a' ≤ c ∧ c ≤ 'z' then Char.ofNat (c.toNat - 32) else c

/-- ASCII upper-casing of a string (`res.get("format", "").upper()` in
`sync.py`). -/
def asciiUpper (s : String) : String :=
  String.mk (s.toList.map asciiUpperChar)

/-- ASCII lower-casing of one character; used by the model of the FTS5
`unicode61` tokenizer, which case-folds ASCII letters. -/
def asciiLowerChar (c : Char) : Char :=
  if 'A' ≤ c ∧ c ≤ 'Z' then Char.ofNat (c.toNat + 32) else c

/-- Character comparison used by SQLite's `LIKE` operator: by default it is
case-insensitive exactly on the ASCII letters. -/
def likeCharEq (p h : Char) : Bool := asciiUpperChar p = asciiUpperChar h

/-- One step-bounded matcher for SQLite `LIKE` patterns (`%` matches any
sequence, `_` any single character, other characters compare
ASCII-case-insensitively).  The fuel argument only makes the recursion
structural; every call site supplies enough fuel (each step consumes at
least one character of the pattern or of the subject). -/
def likeMatchF : Nat → List Char → List Char → Bool
  | 0, _, _ => false
  | _ + 1, [], hs => hs.isEmpty
  | f + 1, '%' :: ps, [] => likeMatchF f ps []
  | f + 1, '%' :: ps, h :: hs => likeMatchF f ps (h :: hs) || likeMatchF f ('%' :: ps) hs
  | _ + 1, '_' :: _, [] => false
  | f + 1, '_' :: ps, _ :: hs => likeMatchF f ps hs
  | _ + 1, _ :: _, [] => false
  | f + 1, p :: ps, h :: hs => likeCharEq p h && likeMatchF f ps hs

/-- `field LIKE pat` for SQLite's default (ASCII-case-insensitive) collation
of `LIKE`. -/
def sql_like (field pat : String) : Bool :=
  likeMatchF (pat.length + field.length + 1) pat.toList field.toList

/-- The pattern the code binds for a substring filter: `f"%{value}%"`
(`db.py`, `_build_filters`). -/
def like_param (v : String) : String := "%" ++ v ++ "%"

/-- `startsWithSeq hay needle`: `needle` is a leading segment of `hay`,
comparing characters exactly (case-sensitively). -/
def startsWithSeq : List Char → List Char → Bool
  | _, [] => true
  | [], _ :: _ => false
  | h :: hs, n :: ns => h = n && startsWithSeq hs ns

/-- `containsSeq hay needle`: `needle` occurs contiguously inside `hay`,
comparing characters exactly. -/
def containsSeq : List Char → List Char → Bool
  | [], needle => startsWithSeq [] needle
  | c :: rest, needle => startsWithSeq (c :: rest) needle || containsSeq rest needle

/-- Case-sensitive substring containment; this is the reading of a
"case-sensitive infix substring" filter that the specification describes
(it is *not* what SQLite `LIKE` implements). -/
def case_sens_contains (needle hay : String) : Bool :=
  containsSeq hay.toList needle.toList

/- ===================== FTS5 model ===================== -/

/-- Tokens of a text under the FTS5 `unicode61` tokenizer, restricted to the
ASCII texts used in this development: maximal runs of alphanumeric
characters, case-folded to lower case.  (`remove_diacritics 2` is the
identity on ASCII.) -/
def ftsTokensGo : List Char → List Char → List String
  | [], cur => if cur.isEmpty then [] else [String.mk cur.reverse]
  | c :: rest, cur =>
    if c.isAlphanum then ftsTokensGo rest (asciiLowerChar c :: cur)
    else if cur.isEmpty then ftsTokensGo rest []
    else String.mk cur.reverse :: ftsTokensGo rest []

def ftsTokens (s : String) : List String := ftsTokensGo s.toList []

/-- The space-separated words of a query string (used below to recognise
the upper-case FTS5 operator keywords; runs of spaces yield no extra
words, which carries no information for that check). -/
def queryWordsGo : List Char → List Char → List String
  | [], cur => if cur.isEmpty then [] else [String.mk cur.reverse]
  | c :: rest, cur =>
    if c = ' ' then
      if cur.isEmpty then queryWordsGo rest []
      else String.mk cur.reverse :: queryWordsGo rest []
    else queryWordsGo rest (c :: cur)

def queryWords (s : String) : List String := queryWordsGo s.toList []

/-- The FTS5 operator keywords, which are recognised only in upper case. -/
def ftsOperatorWords : List String := ["AND", "OR", "NOT", "NEAR"]

/-- The fragment of the FTS5 query language modelled here: queries made of
alphanumeric characters and spaces, containing at least one token and no
upper-case operator keyword.  Such a query parses as an implicit-AND
conjunction of its tokens.  A query with no token — in particular the empty
string — is rejected by the FTS5 query parser with `fts5: syntax error`,
which surfaces as a raised `sqlite3.OperationalError` in Python. -/
def ftsPlainQuery (q : String) : Bool :=
  q.toList.all (fun c => c.isAlphanum || c = ' ') &&
  !(ftsTokens q).isEmpty &&
  (queryWords q).all (fun wrd => !(ftsOperatorWords.contains wrd))

/- ===================== Raw JSON records (models.py) ===================== -/

/-- The fragment of JSON values that the catalog payloads exercise and the
normalizer inspects: strings, integers, nulls and arrays.  (`models.py`
distinguishes exactly "is a list" from everything else; the two list-valued
fields arrive either absent, as a string, or as a list.) -/
inductive JVal where
  | null : JVal
  | str (s : String) : JVal
  | num (n : Int) : JVal
  | arr (xs : List JVal) : JVal

/-- Minimal escaping applied by `json.dumps` to the string payloads this
development exercises (no quote, backslash or control characters appear in
them, so the identity suffices on that fragment). -/
def jstrEscape (s : String) : String := s

/-- `json.dumps(v, ensure_ascii=False)` on the modelled JSON fragment. -/
def jdump : JVal → String
  | .null => "null"
  | .str s => "\"" ++ jstrEscape s ++ "\""
  | .num n => toString n
  | .arr xs => "[" ++ jdumpList xs ++ "]"
where
  jdumpList : List JVal → String
    | [] => ""
    | [x] => jdump x
    | x :: y :: xs => jdump x ++ ", " ++ jdumpList (y :: xs)

/-- Python `str()` on the modelled JSON fragment (exact for strings,
integers and `None`; the catalog's identifier field is a string or an
integer). -/
def pyStr : JVal → String
  | .null => "None"
  | .str s => s
  | .num n => toString n
  | .arr xs => jdump (.arr xs)

/-- A raw record as decoded from a catalog JSON array: a Python dict,
modelled as an association list (first binding wins, as in a dict built
from distinct JSON keys). -/
abbrev RawDict := List (String × JVal)

/-- `data[k]` / `data.get(k)` lookup. -/
def dictGet (d : RawDict) (k : String) : Option JVal :=
  (d.find? (fun p => p.1 == k)).map (·.2)

/-- `data.get(k, "")` for the fields the dataclass annotates as `str`: the
catalog serializes these fields as JSON strings when present; an absent or
null field yields the empty-string default. -/
def getStrD (d : RawDict) (k : String) : String :=
  match dictGet d k with
  | some (.str s) => s
  | _ => ""

/-- `data.get(k)` for the fields the dataclass annotates as `str | None`. -/
def getStrOpt (d : RawDict) (k : String) : Option String :=
  match dictGet d k with
  | some (.str s) => some s
  | _ => none

/-- The handling of the two list-valued fields in `Acordao.from_json`:
`refs = data.get(k)`; if it is a list, it becomes `json.dumps(refs,
ensure_ascii=False)` when non-empty and `""` when empty; finally
`refs or ""` replaces a falsy value by `""`. -/
def serializeListField (d : RawDict) (k : String) : String :=
  match dictGet d k with
  | some (.arr xs) => if xs.isEmpty then "" else jdump (.arr xs)
  | some (.str s) => s
  | _ => ""

/-- The canonical case record (`models.py`, dataclass `Acordao`). -/
structure Acordao where
  id : String
  numero_documento : Option String
  numero_processo : String
  numero_registro : String
  sigla_classe : String
  descricao_classe : String
  classe_padronizada : Option String
  orgao_julgador : String
  ministro_relator : String
  data_publicacao : String
  ementa : String
  tipo_decisao : String
  data_decisao : String
  decisao : String
  jurisprudencia_citada : Option String := none
  notas : Option String := none
  informacoes_complementares : Option String := none
  termos_auxiliares : Option String := none
  tese_juridica : Option String := none
  tema : Option String := none
  referencias_legislativas : String := ""
  acordaos_similares : String := ""
deriving DecidableEq, Repr

/-- `Acordao.from_json` (`models.py`): normalization of one raw record.
`data["id"]` raises `KeyError` when the identifier key is absent — the only
field without a safe default — which is modelled as `none`; every other
field falls back to `""`/`None` via `data.get`. -/
def Acordao.from_json (data : RawDict) : Option Acordao :=
  match dictGet data "id" with
  | none => none
  | some v => some
    { id := pyStr v
      numero_documento := getStrOpt data "numeroDocumento"
      numero_processo := getStrD data "numeroProcesso"
      numero_registro := getStrD data "numeroRegistro"
      sigla_classe := getStrD data "siglaClasse"
      descricao_classe := getStrD data "descricaoClasse"
      classe_padronizada := getStrOpt data "classePadronizada"
      orgao_julgador := getStrD data "nomeOrgaoJulgador"
      ministro_relator := getStrD data "ministroRelator"
      data_publicacao := getStrD data "dataPublicacao"
      ementa := getStrD data "ementa"
      tipo_decisao := getStrD data "tipoDeDecisao"
      data_decisao := getStrD data "dataDecisao"
      decisao := getStrD data "decisao"
      jurisprudencia_citada := getStrOpt data "jurisprudenciaCitada"
      notas := getStrOpt data "notas"
      informacoes_complementares := getStrOpt data "informacoesComplementares"
      termos_auxiliares := getStrOpt data "termosAuxiliares"
      tese_juridica := getStrOpt data "teseJuridica"
      tema := getStrOpt data "tema"
      referencias_legislativas := serializeListField data "referenciasLegislativas"
      acordaos_similares := serializeListField data "acordaosSimilares" }

/-- The list comprehension `[Acordao.from_json(r) for r in raw]` in
`sync.py`: records are normalized left to right, and the first failing
record aborts the whole comprehension with its exception. -/
def normalize_records : List RawDict → Option (List Acordao)
  | [] => some []
  | r :: rest =>
    match Acordao.from_json r with
    | none => none
    | some a =>
      match normalize_records rest with
      | none => none
      | some more => some (a :: more)

/- ===================== Store (db.py) ===================== -/

/-- One row of the `sync_state` table (the `downloaded_at` wall-clock
timestamp column is not modelled; no claim concerns it). -/
structure SyncRow where
  dataset : String
  resource_id : String
  resource_name : String
deriving DecidableEq, Repr

/-- The file-backed SQLite store: the `acordaos` table (in row order) and
the `sync_state` marker table.  The FTS5 shadow table is content-linked to
`acordaos` and kept consistent by triggers inside the same transaction, so
it carries no independent state and is represented by the `acordaos` rows
themselves. -/
structure DB where
  acordaos : List Acordao
  sync_state : List SyncRow
deriving DecidableEq, Repr

/-- The identifiers currently present in the primary table. -/
def store_ids (db : DB) : List String := db.acordaos.map (·.id)

/-- `init_db` runs the idempotent `CREATE ... IF NOT EXISTS` schema script
and the forward-only column migration; neither touches any row, so on the
relational state it is the identity. -/
def init_db (db : DB) : DB := db

/-- `INSERT OR REPLACE` of a single row keyed by the `id` primary key:
SQLite deletes any conflicting row and inserts the new row (at a fresh
rowid, hence at the end in row order). -/
def upsert1 (s : List Acordao) (r : Acordao) : List Acordao :=
  s.filter (fun a => !(a.id == r.id)) ++ [r]

/-- The batch `executemany` of `upsert_acordaos`, applied left to right. -/
def upsert_batch (s : List Acordao) (rs : List Acordao) : List Acordao :=
  rs.foldl upsert1 s

/-- `upsert_acordaos` (`db.py`): one transaction that inserts-or-replaces
every record and returns `len(rows)` (`0` for an empty input, which issues
no statement at all). -/
def upsert_acordaos (db : DB) (records : List Acordao) : DB × Nat :=
  ({ db with acordaos := upsert_batch db.acordaos records }, records.length)

/-- `mark_synced` (`db.py`): `INSERT OR REPLACE` into `sync_state` keyed by
the `(dataset, resource_id)` primary key. -/
def mark_synced (db : DB) (dataset resource_id resource_name : String) : DB :=
  { db with
    sync_state :=
      db.sync_state.filter
        (fun m => !(m.dataset == dataset && m.resource_id == resource_id)) ++
      [⟨dataset, resource_id, resource_name⟩] }

/-- `is_synced` (`db.py`): does a marker row exist for the pair? -/
def is_synced (db : DB) (dataset resource_id : String) : Bool :=
  db.sync_state.any (fun m => m.dataset == dataset && m.resource_id == resource_id)

/-- Python truthiness of an optional-string argument (`if dataset:` /
`if ministro:`): `None` and the empty string are falsy. -/
def str_truthy : Option String → Option String
  | some s => if s = "" then none else some s
  | none => none

/-- `clear_sync_state` (`db.py`): delete markers of one dataset, or all of
them when the argument is falsy. -/
def clear_sync_state (db : DB) (dataset : Option String) : DB :=
  match str_truthy dataset with
  | some d => { db with sync_state := db.sync_state.filter (fun m => !(m.dataset == d)) }
  | none => { db with sync_state := [] }

/-- `get_by_id` (`db.py`): `SELECT * FROM acordaos WHERE id = ?` (the
primary-key lookup returns the unique matching row, if any). -/
def get_by_id (db : DB) (record_id : String) : Option Acordao :=
  db.acordaos.find? (fun a => a.id == record_id)

/- ===================== Query layer (db.py) ===================== -/

/-- Lexicographic comparison of two character sequences; over the ASCII
texts compared here (8-digit date strings) this is exactly SQLite's
default BINARY collation for the `>=` comparison on TEXT values. -/
def strLeChars : List Char → List Char → Bool
  | [], _ => true
  | _ :: _, [] => false
  | c1 :: t1, c2 :: t2 => if c1 = c2 then strLeChars t1 t2 else decide (c1 < c2)

/-- `v <= s` as SQLite evaluates `a.data_decisao >= ?` (binary/lexicographic
text comparison). -/
def sql_text_le (v s : String) : Bool := strLeChars v.toList s.toList

/-- `_build_filters` (`db.py`) as the row predicate the generated SQL
`WHERE` clauses denote: each truthy argument contributes one conjunct —
`ministro_relator LIKE %v%` and `sigla_classe LIKE %v%` (SQLite `LIKE`,
ASCII-case-insensitive), and `data_decisao >= desde` (binary text
comparison, i.e. lexicographic). -/
def build_filters (ministro classe desde : Option String) (a : Acordao) : Bool :=
  (match str_truthy ministro with
   | some v => sql_like a.ministro_relator (like_param v)
   | none => true) &&
  (match str_truthy classe with
   | some v => sql_like a.sigla_classe (like_param v)
   | none => true) &&
  (match str_truthy desde with
   | some v => sql_text_le v a.data_decisao
   | none => true)

/-- Insertion of an element into a list sorted by the boolean relation
`le`; `sortBy` below models the reordering SQLite's `ORDER BY` performs
(the claims depend only on sortedness, membership and length, which hold
for any correct sorting algorithm). -/
def orderedInsert (le : α → α → Bool) (a : α) : List α → List α
  | [] => [a]
  | b :: l => if le a b then a :: b :: l else b :: orderedInsert le a l

def sortBy (le : α → α → Bool) : List α → List α
  | [] => []
  | a :: l => orderedInsert le a (sortBy le l)

/-- The comparison `ORDER BY` uses in `search` (`db.py`):
`a.data_decisao DESC` when `order == "data"` (the default), otherwise
`rank` ascending (`bm25` scores are more negative for better matches, so
ascending order puts best matches first). -/
def search_le (rank : Acordao → Int) (ord : String) (a b : Acordao) : Bool :=
  if ord = "data" then decide (b.data_decisao ≤ a.data_decisao)
  else decide (rank a ≤ rank b)

/-- The `SELECT` of `search` (`db.py`), parameterized by the engine's match
predicate `fts` (the `acordaos_fts MATCH ?` test for the given query) and
ranking function `rank` (the row's `bm25(acordaos_fts)` score): join rows
matching the full-text query, apply the structured filters, order by the
requested mode, and cap at `limit` rows. -/
def search_rows (fts : Acordao → Bool) (rank : Acordao → Int) (store : List Acordao)
    (ministro classe desde : Option String) (limit : Nat) (ord : String) : List Acordao :=
  let matched := store.filter (fun a => fts a && build_filters ministro classe desde a)
  (sortBy (search_le rank ord) matched).take limit

/-- The indexed columns of the FTS5 shadow table, in schema order
(`ementa, decisao, informacoes_complementares, termos_auxiliares, notas,
tese_juridica`); a SQL `NULL` contributes no text. -/
def fts_indexed_text (a : Acordao) : List String :=
  [a.ementa, a.decisao, a.informacoes_complementares.getD "",
   a.termos_auxiliares.getD "", a.notas.getD "", a.tese_juridica.getD ""]

def fts_row_tokens (a : Acordao) : List String :=
  (fts_indexed_text a).flatMap ftsTokens

/-- `acordaos_fts MATCH q` for a plain implicit-AND query (the modelled
FTS5 fragment): every query token occurs among the row's indexed tokens. -/
def fts5_match (q : String) (a : Acordao) : Bool :=
  (ftsTokens q).all (fun t => fts_row_tokens a |>.contains t)

/-- The error SQLite raises out of `conn.execute` for an FTS5 query that
fails to parse — in particular for a query containing no token, such as
the empty string. -/
inductive SqlError where
  | ftsSyntaxError : SqlError
deriving DecidableEq, Repr

/-- `search` (`db.py`): the query string is passed verbatim to
`acordaos_fts MATCH ?`; a query that fails to parse raises
`sqlite3.OperationalError` (modelled as `.error`), and otherwise the
filtered, ordered, capped rows are returned. -/
def search (store : List Acordao) (rank : Acordao → Int) (q : String)
    (ministro classe desde : Option String) (limit : Nat) (ord : String) :
    Except SqlError (List Acordao) :=
  if ftsPlainQuery q then
    .ok (search_rows (fts5_match q) rank store ministro classe desde limit ord)
  else
    .error .ftsSyntaxError

/-- The aggregate report of `search_stats` (`db.py`). -/
structure SearchStats where
  total : Nat
  by_orgao : List (String × Nat)
  by_classe : List (String × Nat)
  by_relator : List (String × Nat)
  by_year : List (String × Nat)
deriving DecidableEq, Repr

/-- `GROUP BY key` with `COUNT(*)`: one pair per distinct key value, in
first-appearance order (SQL leaves the pre-`ORDER BY` group order
unspecified; the claims do not depend on it). -/
def groupCounts (key : Acordao → String) (rows : List Acordao) : List (String × Nat) :=
  ((rows.map key).eraseDups).map (fun k => (k, rows.countP (fun a => key a == k)))

/-- `ORDER BY cnt DESC` over grouped counts (ties in unspecified order;
modelled by a deterministic sort). -/
def sortCountDesc (l : List (String × Nat)) : List (String × Nat) :=
  sortBy (fun p q => Nat.ble q.2 p.2) l

/-- `ORDER BY ano DESC` over the year groups. -/
def sortKeyDesc (l : List (String × Nat)) : List (String × Nat) :=
  sortBy (fun p q => decide (q.1 ≤ p.1)) l

/-- `SUBSTR(data_decisao, 1, 4)`. -/
def yearOf (a : Acordao) : String := String.mk (a.data_decisao.toList.take 4)

/-- `search_stats` (`db.py`): the same filtered full-text match as
`search`, aggregated as a total count plus four breakdowns (by judging
body, all; by class code, top 10; by reporting judge, top 10; by decision
year over non-empty dates, most recent 15). -/
def search_stats (store : List Acordao) (q : String)
    (ministro classe desde : Option String) : Except SqlError SearchStats :=
  if ftsPlainQuery q then
    let matched := store.filter (fun a => fts5_match q a && build_filters ministro classe desde a)
    .ok
      { total := matched.length
        by_orgao := sortCountDesc (groupCounts (·.orgao_julgador) matched)
        by_classe := (sortCountDesc (groupCounts (·.sigla_classe) matched)).take 10
        by_relator := (sortCountDesc (groupCounts (·.ministro_relator) matched)).take 10
        by_year :=
          (sortKeyDesc (groupCounts yearOf
            (matched.filter (fun a => !(a.data_decisao == ""))))).take 15 }
  else
    .error .ftsSyntaxError

/- ===================== Sync engine (client.py / sync.py / cli.py) ===================== -/

/-- A resource descriptor from the catalog's `package_show` response
(`id`, `name`, `format`, `url`; the fields `sync.py` reads). -/
structure Resource where
  id : String
  name : String
  format : String
  url : String
deriving DecidableEq, Repr

/-- The Python exceptions that can escape one resource's processing. -/
inductive PyExn where
  /-- `httpx.HTTPStatusError` / `httpx.TransportError` re-raised by
  `_request_with_retry` after exhausting its 3 attempts. -/
  | upstream : PyExn
  /-- a JSON decoding failure (`resp.json()` / `parse_json_file`). -/
  | badJson : PyExn
  /-- `KeyError` from `data["id"]` on a record lacking its identifier. -/
  | keyError : PyExn
deriving DecidableEq, Repr

/-- The external world a sync run interacts with: the catalog's listing
endpoint and the two payload fetchers, each already folded through the
retry loop of `client.py` (an `.error` is the exception that escapes after
retry exhaustion).  For a ZIP resource the world yields the extracted
`.json` members in archive order, each with its parsed content — `none`
standing for a file on which `parse_json_file` raises. -/
structure World where
  get_dataset_resources : String → Except PyExn (List Resource)
  download_json : String → Except PyExn (List RawDict)
  download_and_extract_zip : String → Except PyExn (List (String × Option (List RawDict)))

/-- `filter_data_resources` (`client.py`): keep resources whose format
upper-cases to `JSON` or `ZIP` and whose name does not start with the
reserved `dicionario` dictionary-file marker. -/
def filter_data_resources (resources : List Resource) : List Resource :=
  resources.filter (fun r =>
    (asciiUpper r.format == "JSON" || asciiUpper r.format == "ZIP") &&
    !(r.name.startsWith "dicionario"))

/-- The fixed dataset catalog (`config.py`, `DATASETS`). -/
def DATASETS : List String :=
  ["espelhos-de-acordaos-corte-especial",
   "espelhos-de-acordaos-primeira-secao",
   "espelhos-de-acordaos-primeira-turma",
   "espelhos-de-acordaos-quarta-turma",
   "espelhos-de-acordaos-quinta-turma",
   "espelhos-de-acordaos-segunda-secao",
   "espelhos-de-acordaos-segunda-turma",
   "espelhos-de-acordaos-sexta-turma",
   "espelhos-de-acordaos-terceira-secao",
   "espelhos-de-acordaos-terceira-turma"]

/-- The mutable state a sync run drives: the store plus the extracted
`.json` files currently on disk in the working directory. -/
structure SyncSt where
  db : DB
  files : List String
deriving DecidableEq, Repr

/-- The outcome of running the `try:` body of one resource (`sync.py`
lines 51-66): the state and upserted count as of the end of the body or as
of the raise — Python keeps all side effects performed before an
exception. -/
structure BodyOut where
  db : DB
  files : List String
  upserted : Nat
  exn : Option PyExn
deriving DecidableEq, Repr

/-- The `for json_file in json_files:` loop of the ZIP branch: parse the
file, normalize all its records, upsert the batch, add to the running
count, then `unlink` the file; a raise at any step leaves the current file
(and all later ones) on disk and aborts the loop with the exception. -/
def zip_files_loop (db : DB) (files : List String) (total : Nat) :
    List (String × Option (List RawDict)) → BodyOut
  | [] => ⟨db, files, total, none⟩
  | (path, content) :: rest =>
    match content with
    | none => ⟨db, files, total, some .badJson⟩
    | some raw =>
      match normalize_records raw with
      | none => ⟨db, files, total, some .keyError⟩
      | some records =>
        let (db1, count) := upsert_acordaos db records
        zip_files_loop db1 ((files.erase path)) (total + count) rest

/-- The `try:` body for one resource: the ZIP branch extracts every
`.json` member to disk and then consumes them one by one; the JSON branch
downloads, normalizes and upserts in one step.  (`db.mark_synced` on
success is applied by `sync_resource` below, still inside the `try`.) -/
def resource_body (w : World) (db : DB) (files : List String) (res : Resource) : BodyOut :=
  if asciiUpper res.format == "ZIP" then
    match w.download_and_extract_zip res.url with
    | .error e => ⟨db, files, 0, some e⟩
    | .ok entries =>
      zip_files_loop db (files ++ entries.map (·.1)) 0 entries
  else
    match w.download_json res.url with
    | .error e => ⟨db, files, 0, some e⟩
    | .ok raw =>
      match normalize_records raw with
      | none => ⟨db, files, 0, some .keyError⟩
      | some records =>
        let (db1, count) := upsert_acordaos db records
        ⟨db1, files, count, none⟩

/-- One iteration of the per-resource loop of `sync_dataset`: skip the
resource when a marker exists and `force` is off; otherwise run the body,
mark the resource synced on success, and — crucially — catch any exception
(`except Exception`), log it, and continue with the accumulated state. -/
def sync_resource (w : World) (dataset : String) (force : Bool)
    (st : SyncSt) (total : Nat) (res : Resource) : SyncSt × Nat :=
  if !force && is_synced st.db dataset res.id then (st, total)
  else
    let out := resource_body w st.db st.files res
    match out.exn with
    | none =>
      (⟨mark_synced out.db dataset res.id res.name, out.files⟩, total + out.upserted)
    | some _ => (⟨out.db, out.files⟩, total + out.upserted)

/-- The `for res in data_resources:` loop of `sync_dataset`. -/
def resources_loop (w : World) (dataset : String) (force : Bool) :
    List Resource → SyncSt → Nat → SyncSt × Nat
  | [], st, total => (st, total)
  | res :: rest, st, total =>
    let (st1, total1) := sync_resource w dataset force st total res
    resources_loop w dataset force rest st1 total1

/-- `sync_dataset` (`sync.py`): list the dataset's resources — note that
`client.get_dataset_resources` at line 26 runs *outside* the per-resource
`try`, so a listing failure raises out of `sync_dataset` — filter to data
resources, and run the per-resource loop. -/
def sync_dataset (w : World) (dataset : String) (force : Bool) (st : SyncSt) :
    Except PyExn (SyncSt × Nat) :=
  match w.get_dataset_resources dataset with
  | .error e => .error e
  | .ok resources =>
    .ok (resources_loop w dataset force (filter_data_resources resources) st 0)

/-- The dataset scope of a run (`sync_all`, line 84):
`[dataset_filter] if dataset_filter else DATASETS`, with Python
truthiness. -/
def scope_datasets (dataset_filter : Option String) : List String :=
  match str_truthy dataset_filter with
  | some d => [d]
  | none => DATASETS

/-- The `for ds in datasets:` loop of `sync_all`: an exception raised by
`sync_dataset` (a listing failure) is *not* caught here and aborts the
remaining datasets; the state committed so far persists. -/
def sync_all_go (w : World) (force : Bool) :
    List String → SyncSt → Nat → SyncSt × Nat × Option PyExn
  | [], st, total => (st, total, none)
  | d :: rest, st, total =>
    match sync_dataset w d force st with
    | .error e => (st, total, some e)
    | .ok (st1, count) => sync_all_go w force rest st1 (total + count)

/-- `sync_all` (`sync.py`). -/
def sync_all (w : World) (dataset_filter : Option String) (force : Bool)
    (st : SyncSt) : SyncSt × Nat × Option PyExn :=
  sync_all_go w force (scope_datasets dataset_filter)
    ⟨init_db st.db, st.files⟩ 0

/-- The `sync` CLI command (`cli.py`): validate an explicit dataset name
against the catalog (exit code 1 otherwise), clear the targeted markers
when `--force` is given, then run `sync_all`. -/
def cli_sync (w : World) (dataset : Option String) (force : Bool) (st : SyncSt) :
    Except Nat (SyncSt × Nat × Option PyExn) :=
  match str_truthy dataset with
  | some d =>
    if DATASETS.contains d then
      .ok (sync_all w dataset force
        (if force then ⟨clear_sync_state st.db dataset, st.files⟩ else st))
    else
      .error 1
  | none =>
    .ok (sync_all w dataset force
      (if force then ⟨clear_sync_state st.db dataset, st.files⟩ else st))

/-- The identifiers a resource's body successfully upserts before any
exception: a pure function of the world and the resource (fetching,
parsing and normalization do not depend on the store), which is what makes
per-resource failure isolation expressible — whether these records land
cannot be influenced by other resources' failures. -/
def file_landed_ids (entry : String × Option (List RawDict)) : Option (List String) :=
  match entry.2 with
  | none => none
  | some raw => (normalize_records raw).map (fun records => records.map (·.id))

def zip_landed_ids : List (String × Option (List RawDict)) → List String
  | [] => []
  | e :: rest =>
    match file_landed_ids e with
    | none => []
    | some ids => ids ++ zip_landed_ids rest

def body_landed_ids (w : World) (res : Resource) : List String :=
  if asciiUpper res.format == "ZIP" then
    match w.download_and_extract_zip res.url with
    | .error _ => []
    | .ok entries => zip_landed_ids entries
  else
    match w.download_json res.url with
    | .error _ => []
    | .ok raw =>
      match normalize_records raw with
      | none => []
      | some records => records.map (·.id)

/- ===================== Auxiliary definitions for concrete runs ===================== -/

/-- A zip entry whose consumption (parse + normalize) succeeds. -/
def entry_consumable (e : String × Option (List RawDict)) : Bool :=
  match e.2 with
  | some raw => (normalize_records raw).isSome
  | none => false

/-- A fresh store and an empty working directory. -/
def emptySt : SyncSt := ⟨⟨[], []⟩, []⟩

/-- A concrete record with every optional field defaulted. -/
def baseAcordao : Acordao :=
  { id := "0", numero_documento := none, numero_processo := "", numero_registro := "",
    sigla_classe := "", descricao_classe := "", classe_padronizada := none,
    orgao_julgador := "", ministro_relator := "", data_publicacao := "",
    ementa := "", tipo_decisao := "", data_decisao := "", decisao := "" }

/-- A record whose reporting judge is `"Silva"` (mixed case). -/
def recSilva : Acordao :=
  { baseAcordao with
    id := "s1", ministro_relator := "Silva",
    ementa := "dano moral", data_decisao := "20200315", sigla_classe := "REsp" }

/-- A record decided the day before the 2020-01-01 boundary. -/
def recD1 : Acordao :=
  { baseAcordao with id := "d1", ementa := "dano moral", data_decisao := "20191231" }

/-- A record decided exactly on the 2020-01-01 boundary. -/
def recD2 : Acordao :=
  { baseAcordao with id := "d2", ementa := "dano moral", data_decisao := "20200101" }

/-- A constant stand-in for the engine's `bm25` ranking in concrete runs. -/
def rank0 : Acordao → Int := fun _ => 0

/-- Raw records for concrete sync runs: two well-formed ones and one
lacking the identifier key. -/
def rawGood1 : RawDict := [("id", .str "g1"), ("ementa", .str "contrato")]

def rawNoId : RawDict := [("ementa", .str "dano")]

def rawGood2 : RawDict := [("id", .str "g2"), ("ementa", .str "multa")]

/-- A JSON resource whose download fails after retry exhaustion. -/
def resFail : Resource := ⟨"r1", "parte-1", "JSON", "u1"⟩

/-- A JSON resource whose download succeeds. -/
def resOk : Resource := ⟨"r2", "parte-2", "JSON", "u2"⟩

/-- A world for dataset `"dA"` in which the first resource's fetch raises
after retry exhaustion and the second fetch succeeds. -/
def worldPartialFail : World :=
  { get_dataset_resources := fun d => if d = "dA" then .ok [resFail, resOk] else .ok [],
    download_json := fun u => if u = "u2" then .ok [rawGood2] else .error .upstream,
    download_and_extract_zip := fun _ => .error .upstream }

/-- A world for dataset `"dA"` whose single JSON resource's payload
contains a record without the identifier key between two well-formed
records. -/
def worldMalformed : World :=
  { get_dataset_resources := fun d => if d = "dA" then .ok [resFail] else .ok [],
    download_json := fun _ => .ok [rawGood1, rawNoId, rawGood2],
    download_and_extract_zip := fun _ => .error .upstream }

/-- A world in which the *listing* of the first catalog dataset fails
after retry exhaustion, while the second dataset has a perfectly good
resource. -/
def worldListingFail : World :=
  { get_dataset_resources := fun d =>
      if d = "espelhos-de-acordaos-corte-especial" then .error .upstream
      else if d = "espelhos-de-acordaos-primeira-secao" then .ok [resOk]
      else .ok [],
    download_json := fun u => if u = "u2" then .ok [rawGood2] else .error .upstream,
    download_and_extract_zip := fun _ => .error .upstream }

/-- A ZIP resource. -/
def resZip : Resource := ⟨"rz", "parte-zip", "ZIP", "uz"⟩

/-- A world for dataset `"dZ"` whose ZIP resource extracts two `.json`
files; the first parses and upserts fine, the second fails to parse. -/
def worldZipFail : World :=
  { get_dataset_resources := fun d => if d = "dZ" then .ok [resZip] else .ok [],
    download_json := fun _ => .error .upstream,
    download_and_extract_zip := fun u =>
      if u = "uz" then .ok [("f1.json", some [rawGood1]), ("f2.json", none)]
      else .error .upstream }

/-- A world for dataset `"dZ"` whose ZIP resource extracts two `.json`
files, both of which parse, normalize and upsert fine. -/
def worldZipOk : World :=
  { get_dataset_resources := fun d => if d = "dZ" then .ok [resZip] else .ok [],
    download_json := fun _ => .error .upstream,
    download_and_extract_zip := fun u =>
      if u = "uz" then .ok [("f1.json", some [rawGood1]), ("f2.json", some [rawGood2])]
      else .error .upstream }

/-- The first catalog dataset name, used by the force-semantics witness. -/
def ds1 : String := "espelhos-de-acordaos-corte-especial"

/-- A world in which catalog dataset `ds1` has one good JSON resource. -/
def worldForce : World :=
  { get_dataset_resources := fun d => if d = ds1 then .ok [resOk] else .ok [],
    download_json := fun u => if u = "u2" then .ok [rawGood2] else .error .upstream,
    download_and_extract_zip := fun _ => .error .upstream }

/-- A starting state whose store already carries a sync marker for
`(ds1, "r2")`, i.e. for `resOk`. -/
def markedSt : SyncSt := ⟨⟨[], [⟨ds1, "r2", "parte-2"⟩]⟩, []⟩

/- ===================== Lemmas: sorting ===================== -/

lemma mem_orderedInsert {le : α → α → Bool} {a b : α} {l : List α} :
    b ∈ orderedInsert le a l ↔ b = a ∨ b ∈ l := by
  induction l with
  | nil => simp [orderedInsert]
  | cons c t ih =>
    by_cases h : le a c = true
    · simp [orderedInsert, h]
    · simp only [orderedInsert, if_neg h, List.mem_cons, ih]
      tauto

lemma mem_sortBy {le : α → α → Bool} {a : α} {l : List α} :
    a ∈ sortBy le l ↔ a ∈ l := by
  induction l with
  | nil => simp [sortBy]
  | cons c t ih => simp [sortBy, mem_orderedInsert, ih]

lemma length_orderedInsert {le : α → α → Bool} (a : α) (l : List α) :
    (orderedInsert le a l).length = l.length + 1 := by
  induction l with
  | nil => simp [orderedInsert]
  | cons c t ih =>
    by_cases h : le a c = true
    · simp [orderedInsert, h]
    · simp [orderedInsert, h, ih]

lemma length_sortBy {le : α → α → Bool} (l : List α) :
    (sortBy le l).length = l.length := by
  induction l with
  | nil => rfl
  | cons c t ih => simp [sortBy, length_orderedInsert, ih]

lemma pairwise_orderedInsert {le : α → α → Bool}
    (htot : ∀ a b, le a b || le b a)
    (htrans : ∀ a b c, le a b = true → le b c = true → le a c = true)
    (a : α) {l : List α} (hl : l.Pairwise (fun x y => le x y = true)) :
    (orderedInsert le a l).Pairwise (fun x y => le x y = true) := by
  induction l with
  | nil => simp [orderedInsert]
  | cons c t ih =>
    rcases List.pairwise_cons.mp hl with ⟨hc, ht⟩
    by_cases h : le a c = true
    · rw [orderedInsert, if_pos h]
      refine List.pairwise_cons.mpr ⟨?_, hl⟩
      intro x hx
      rcases List.mem_cons.mp hx with rfl | hx
      · exact h
      · exact htrans a c x h (hc x hx)
    · rw [orderedInsert, if_neg h]
      refine List.pairwise_cons.mpr ⟨?_, ih ht⟩
      intro x hx
      rcases mem_orderedInsert.mp hx with rfl | hx
      · have h2 := htot x c
        rw [Bool.or_eq_true] at h2
        rcases h2 with h2 | h2
        · exact absurd h2 h
        · exact h2
      · exact hc x hx

lemma pairwise_sortBy {le : α → α → Bool}
    (htot : ∀ a b, le a b || le b a)
    (htrans : ∀ a b c, le a b = true → le b c = true → le a c = true)
    (l : List α) :
    (sortBy le l).Pairwise (fun x y => le x y = true) := by
  induction l with
  | nil => simp [sortBy]
  | cons c t ih => exact pairwise_orderedInsert htot htrans c ih

/- ===================== Lemmas: upsert ===================== -/

lemma ids_upsert1_mono {s : List Acordao} {r : Acordao} {x : String}
    (hx : x ∈ s.map (·.id)) : x ∈ (upsert1 s r).map (·.id) := by
  by_cases hxr : x = r.id
  · subst hxr; simp [upsert1]
  · rcases List.mem_map.mp hx with ⟨a, ha, rfl⟩
    refine List.mem_map.mpr ⟨a, ?_, rfl⟩
    simp only [upsert1, List.mem_append, List.mem_filter]
    exact Or.inl ⟨ha, by simpa using hxr⟩

lemma id_mem_upsert1 (s : List Acordao) (r : Acordao) :
    r.id ∈ (upsert1 s r).map (·.id) := by
  simp [upsert1]

lemma nodup_upsert1 {s : List Acordao} {r : Acordao}
    (h : (s.map (·.id)).Nodup) : ((upsert1 s r).map (·.id)).Nodup := by
  have hsub : ((s.filter (fun a => !(a.id == r.id))).map (·.id)).Sublist (s.map (·.id)) :=
    (List.filter_sublist s).map _
  have h1 : ((s.filter (fun a => !(a.id == r.id))).map (·.id)).Nodup := hsub.nodup h
  have h2 : r.id ∉ (s.filter (fun a => !(a.id == r.id))).map (·.id) := by
    intro hmem
    rcases List.mem_map.mp hmem with ⟨a, ha, hid⟩
    have := (List.mem_filter.mp ha).2
    simp [hid] at this
  rw [upsert1, List.map_append]
  refine List.Nodup.append h1 (List.nodup_singleton _) ?_
  intro x hx hx2
  simp only [List.map_cons, List.map_nil, List.mem_singleton] at hx2
  exact h2 (hx2 ▸ hx)

lemma ids_upsert_batch_mono {s : List Acordao} {rs : List Acordao} {x : String}
    (hx : x ∈ s.map (·.id)) : x ∈ (upsert_batch s rs).map (·.id) := by
  induction rs generalizing s with
  | nil => simpa [upsert_batch] using hx
  | cons r t ih =>
    show x ∈ (upsert_batch (upsert1 s r) t).map (·.id)
    exact ih (ids_upsert1_mono hx)

lemma id_mem_upsert_batch {s : List Acordao} {rs : List Acordao} {r : Acordao}
    (hr : r ∈ rs) : r.id ∈ (upsert_batch s rs).map (·.id) := by
  induction rs generalizing s with
  | nil => cases hr
  | cons r0 t ih =>
    rcases List.mem_cons.mp hr with rfl | hr
    · show r.id ∈ (upsert_batch (upsert1 s r) t).map (·.id)
      exact ids_upsert_batch_mono (id_mem_upsert1 s r)
    · show r.id ∈ (upsert_batch (upsert1 s r0) t).map (·.id)
      exact ih hr

lemma nodup_upsert_batch {s : List Acordao} {rs : List Acordao}
    (h : (s.map (·.id)).Nodup) : ((upsert_batch s rs).map (·.id)).Nodup := by
  induction rs generalizing s with
  | nil => simpa [upsert_batch] using h
  | cons r t ih =>
    show (((upsert_batch (upsert1 s r) t)).map (·.id)).Nodup
    exact ih (nodup_upsert1 h)

lemma length_upsert1_of_mem {s : List Acordao} {r : Acordao}
    (hmem : r.id ∈ s.map (·.id)) (hnd : (s.map (·.id)).Nodup) :
    (upsert1 s r).length = s.length := by
  induction s with
  | nil => simp at hmem
  | cons a t ih =>
    simp only [List.map_cons, List.nodup_cons] at hnd
    by_cases hid : a.id = r.id
    · have hfilter : t.filter (fun b => !(b.id == r.id)) = t := by
        refine List.filter_eq_self.mpr ?_
        intro b hb
        have hne : b.id ≠ r.id := fun hbr => hnd.1 (hid ▸ hbr ▸ List.mem_map.mpr ⟨b, hb, rfl⟩)
        simpa using hne
      have hb : (a.id == r.id) = true := beq_iff_eq.mpr hid
      simp [upsert1, List.filter_cons, hb, hfilter]
    · have hmem2 : r.id ∈ t.map (·.id) := by
        rcases List.mem_map.mp hmem with ⟨b, hb, hbid⟩
        rcases List.mem_cons.mp hb with rfl | hb
        · exact absurd hbid hid
        · exact List.mem_map.mpr ⟨b, hb, hbid⟩
      have ht := ih hmem2 hnd.2
      have hb : (a.id == r.id) = false := beq_eq_false_iff_ne.mpr hid
      rw [upsert1] at ht ⊢
      simp only [List.filter_cons, hb, Bool.not_false, if_pos]
      simp only [List.length_append, List.length_cons] at ht ⊢
      omega

lemma length_upsert_batch_of_mem {s : List Acordao} {rs : List Acordao}
    (hmem : ∀ r ∈ rs, r.id ∈ s.map (·.id)) (hnd : (s.map (·.id)).Nodup) :
    (upsert_batch s rs).length = s.length := by
  induction rs generalizing s with
  | nil => rfl
  | cons r t ih =>
    have h1 : (upsert1 s r).length = s.length :=
      length_upsert1_of_mem (hmem r (List.mem_cons_self r t)) hnd
    have h2 : ∀ r2 ∈ t, r2.id ∈ (upsert1 s r).map (·.id) := fun r2 hr2 =>
      ids_upsert1_mono (hmem r2 (List.mem_cons_of_mem r hr2))
    calc (upsert_batch s (r :: t)).length
        = (upsert_batch (upsert1 s r) t).length := rfl
      _ = (upsert1 s r).length := ih h2 (nodup_upsert1 hnd)
      _ = s.length := h1

lemma find?_append_of_none {p : α → Bool} {l1 l2 : List α}
    (h : ∀ b ∈ l1, p b = false) : (l1 ++ l2).find? p = l2.find? p := by
  induction l1 with
  | nil => rfl
  | cons a t ih =>
    have ha := h a (List.mem_cons_self a t)
    simp [List.find?, ha, ih (fun b hb => h b (List.mem_cons_of_mem a hb))]

lemma get_by_id_upsert1 (s : List Acordao) (r : Acordao) (ss : List SyncRow) :
    get_by_id ⟨upsert1 s r, ss⟩ r.id = some r := by
  unfold get_by_id upsert1
  rw [find?_append_of_none]
  · simp [List.find?]
  · intro b hb
    have := (List.mem_filter.mp hb).2
    simpa using this

/- ===================== Lemmas: sync engine ===================== -/

lemma store_ids_upsert_acordaos_mono {db : DB} {records : List Acordao} {x : String}
    (hx : x ∈ store_ids db) : x ∈ store_ids (upsert_acordaos db records).1 :=
  ids_upsert_batch_mono hx

lemma store_ids_mark_synced (db : DB) (d rid n : String) :
    store_ids (mark_synced db d rid n) = store_ids db := rfl

lemma zip_loop_ids_mono {x : String} :
    ∀ (entries : List (String × Option (List RawDict))) (db : DB) (files : List String)
      (total : Nat), x ∈ store_ids db →
      x ∈ store_ids (zip_files_loop db files total entries).db := by
  intro entries
  induction entries with
  | nil => intro db files total hx; exact hx
  | cons e rest ih =>
    intro db files total hx
    obtain ⟨path, content⟩ := e
    cases content with
    | none => exact hx
    | some raw =>
      cases hn : normalize_records raw with
      | none => simp [zip_files_loop, hn]; exact hx
      | some records =>
        simp only [zip_files_loop, hn]
        exact ih _ _ _ (store_ids_upsert_acordaos_mono hx)

lemma zip_loop_landed {x : String} :
    ∀ (entries : List (String × Option (List RawDict))) (db : DB) (files : List String)
      (total : Nat), x ∈ zip_landed_ids entries →
      x ∈ store_ids (zip_files_loop db files total entries).db := by
  intro entries
  induction entries with
  | nil => intro db files total hx; cases hx
  | cons e rest ih =>
    intro db files total hx
    obtain ⟨path, content⟩ := e
    cases content with
    | none => simp [zip_landed_ids, file_landed_ids] at hx
    | some raw =>
      cases hn : normalize_records raw with
      | none => simp [zip_landed_ids, file_landed_ids, hn] at hx
      | some records =>
        simp only [zip_files_loop, hn]
        simp [zip_landed_ids, file_landed_ids, hn] at hx
        rcases hx with ⟨r, hr, hrid⟩ | hx
        · exact zip_loop_ids_mono rest _ _ _
            (hrid ▸ id_mem_upsert_batch hr)
        · exact ih _ _ _ hx

lemma resource_body_ids_mono {w : World} {db : DB} {files : List String}
    {res : Resource} {x : String} (hx : x ∈ store_ids db) :
    x ∈ store_ids (resource_body w db files res).db := by
  unfold resource_body
  by_cases hfmt : asciiUpper res.format == "ZIP"
  · rw [if_pos hfmt]
    cases w.download_and_extract_zip res.url with
    | error e => exact hx
    | ok entries =>
      dsimp only
      exact zip_loop_ids_mono entries _ _ _ hx
  · rw [if_neg hfmt]
    cases w.download_json res.url with
    | error e => exact hx
    | ok raw =>
      dsimp only
      cases hn : normalize_records raw with
      | none => exact hx
      | some records =>
        dsimp only
        exact store_ids_upsert_acordaos_mono hx

lemma resource_body_landed {w : World} {db : DB} {files : List String}
    {res : Resource} {x : String} (hx : x ∈ body_landed_ids w res) :
    x ∈ store_ids (resource_body w db files res).db := by
  unfold resource_body
  unfold body_landed_ids at hx
  by_cases hfmt : asciiUpper res.format == "ZIP"
  · rw [if_pos hfmt] at hx ⊢
    cases hz : w.download_and_extract_zip res.url with
    | error e => rw [hz] at hx; cases hx
    | ok entries =>
      rw [hz] at hx
      dsimp only at hx ⊢
      exact zip_loop_landed entries _ _ _ hx
  · rw [if_neg hfmt] at hx ⊢
    cases hz : w.download_json res.url with
    | error e => rw [hz] at hx; cases hx
    | ok raw =>
      rw [hz] at hx
      dsimp only at hx ⊢
      cases hn : normalize_records raw with
      | none => rw [hn] at hx; cases hx
      | some records =>
        rw [hn] at hx
        dsimp only at hx ⊢
        rcases List.mem_map.mp hx with ⟨r, hr, rfl⟩
        exact id_mem_upsert_batch hr

lemma zip_loop_sync_state :
    ∀ (entries : List (String × Option (List RawDict))) (db : DB) (files : List String)
      (total : Nat),
      (zip_files_loop db files total entries).db.sync_state = db.sync_state := by
  intro entries
  induction entries with
  | nil => intro db files total; rfl
  | cons e rest ih =>
    intro db files total
    obtain ⟨path, content⟩ := e
    cases content with
    | none => rfl
    | some raw =>
      cases hn : normalize_records raw with
      | none => simp [zip_files_loop, hn]
      | some records => simp only [zip_files_loop, hn]; exact ih _ _ _

lemma resource_body_sync_state (w : World) (db : DB) (files : List String)
    (res : Resource) : (resource_body w db files res).db.sync_state = db.sync_state := by
  unfold resource_body
  by_cases hfmt : asciiUpper res.format == "ZIP"
  · simp only [hfmt, if_pos]
    cases w.download_and_extract_zip res.url with
    | error e => rfl
    | ok entries => exact zip_loop_sync_state entries _ _ _
  · simp only [Bool.not_eq_true] at hfmt
    simp only [hfmt, Bool.false_eq_true, if_neg, ite_false]
    cases w.download_json res.url with
    | error e => rfl
    | ok raw =>
      cases hn : normalize_records raw with
      | none => simp [hn]
      | some records => simp [hn, upsert_acordaos]

lemma is_synced_congr {db1 db2 : DB} (h : db1.sync_state = db2.sync_state)
    (d rid : String) : is_synced db1 d rid = is_synced db2 d rid := by
  simp [is_synced, h]

lemma is_synced_mark_ne {db : DB} {d0 rid0 n0 d rid : String}
    (h : ¬(d0 = d ∧ rid0 = rid)) :
    is_synced (mark_synced db d0 rid0 n0) d rid = is_synced db d rid := by
  simp only [is_synced, mark_synced, List.any_append, List.any_filter]
  have h1 : ∀ m : SyncRow,
      ((!(m.dataset == d0 && m.resource_id == rid0)) &&
        (m.dataset == d && m.resource_id == rid)) =
      (m.dataset == d && m.resource_id == rid) := by
    intro m
    by_cases hm : (m.dataset == d && m.resource_id == rid) = true
    · have hmd : m.dataset = d := beq_iff_eq.mp (Bool.and_elim_left hm)
      have hmr : m.resource_id = rid := beq_iff_eq.mp (Bool.and_elim_right hm)
      have h2 : (m.dataset == d0 && m.resource_id == rid0) = false := by
        rcases not_and_or.mp h with h3 | h3
        · have : m.dataset ≠ d0 := fun he => h3 (he ▸ hmd ▸ rfl)
          simp [beq_eq_false_iff_ne.mpr this]
        · have : m.resource_id ≠ rid0 := fun he => h3 (he ▸ hmr ▸ rfl)
          simp [beq_eq_false_iff_ne.mpr this]
      simp [hm, h2]
    · simp only [Bool.not_eq_true] at hm
      simp [hm]
  have h2 : (List.any db.sync_state fun m =>
      ((!(m.dataset == d0 && m.resource_id == rid0)) &&
        (m.dataset == d && m.resource_id == rid))) =
      List.any db.sync_state fun m => (m.dataset == d && m.resource_id == rid) := by
    congr 1
    funext m
    exact h1 m
  have h3 : ((d0 == d) && (rid0 == rid)) = false := by
    rcases not_and_or.mp h with h3 | h3
    · simp [beq_eq_false_iff_ne.mpr h3]
    · simp [beq_eq_false_iff_ne.mpr h3]
  simp only [h2, List.any_cons, List.any_nil, h3, Bool.or_false]

lemma sync_resource_ids_mono {w : World} {dataset : String} {force : Bool}
    {st : SyncSt} {total : Nat} {res : Resource} {x : String}
    (hx : x ∈ store_ids st.db) :
    x ∈ store_ids (sync_resource w dataset force st total res).1.db := by
  unfold sync_resource
  by_cases hskip : (!force && is_synced st.db dataset res.id) = true
  · rw [if_pos hskip]; exact hx
  · rw [if_neg hskip]
    cases he : (resource_body w st.db st.files res).exn with
    | none =>
      dsimp only
      rw [he]
      dsimp only
      show x ∈ store_ids (mark_synced (resource_body w st.db st.files res).db dataset res.id res.name)
      rw [store_ids_mark_synced]
      exact resource_body_ids_mono hx
    | some e =>
      dsimp only
      rw [he]
      exact resource_body_ids_mono hx

lemma sync_resource_landed {w : World} {dataset : String} {force : Bool}
    {st : SyncSt} {total : Nat} {res : Resource} {x : String}
    (h : force = true ∨ is_synced st.db dataset res.id = false)
    (hx : x ∈ body_landed_ids w res) :
    x ∈ store_ids (sync_resource w dataset force st total res).1.db := by
  unfold sync_resource
  have hskip : (!force && is_synced st.db dataset res.id) = false := by
    rcases h with h | h <;> simp [h]
  rw [hskip, if_neg Bool.false_ne_true]
  dsimp only
  cases he : (resource_body w st.db st.files res).exn with
  | none =>
    dsimp only
    show x ∈ store_ids (mark_synced (resource_body w st.db st.files res).db dataset res.id res.name)
    rw [store_ids_mark_synced]
    exact resource_body_landed hx
  | some e =>
    dsimp only
    exact resource_body_landed hx

lemma sync_resource_synced_ne {w : World} {dataset : String} {force : Bool}
    {st : SyncSt} {total : Nat} {res : Resource} {d rid : String}
    (h : ¬(dataset = d ∧ res.id = rid)) :
    is_synced (sync_resource w dataset force st total res).1.db d rid =
      is_synced st.db d rid := by
  unfold sync_resource
  by_cases hskip : (!force && is_synced st.db dataset res.id) = true
  · rw [if_pos hskip]
  · rw [if_neg hskip]
    cases he : (resource_body w st.db st.files res).exn with
    | none =>
      dsimp only
      rw [he]
      dsimp only
      rw [is_synced_mark_ne h]
      exact is_synced_congr (resource_body_sync_state w st.db st.files res) d rid
    | some e =>
      dsimp only
      rw [he]
      exact is_synced_congr (resource_body_sync_state w st.db st.files res) d rid

lemma resources_loop_ids_mono {w : World} {dataset : String} {force : Bool} {x : String} :
    ∀ (rs : List Resource) (st : SyncSt) (total : Nat), x ∈ store_ids st.db →
      x ∈ store_ids (resources_loop w dataset force rs st total).1.db := by
  intro rs
  induction rs with
  | nil => intro st total hx; exact hx
  | cons res rest ih =>
    intro st total hx
    exact ih _ _ (sync_resource_ids_mono hx)

lemma resources_loop_landed {w : World} {dataset : String} {force : Bool}
    {res : Resource} {x : String} :
    ∀ (rs : List Resource) (st : SyncSt) (total : Nat),
      (rs.map (·.id)).Nodup → res ∈ rs →
      (force = true ∨ is_synced st.db dataset res.id = false) →
      x ∈ body_landed_ids w res →
      x ∈ store_ids (resources_loop w dataset force rs st total).1.db := by
  intro rs
  induction rs with
  | nil => intro st total _ hmem; cases hmem
  | cons r0 rest ih =>
    intro st total hnd hmem hseen hx
    simp only [List.map_cons, List.nodup_cons] at hnd
    rcases List.mem_cons.mp hmem with rfl | hmem
    · exact resources_loop_ids_mono rest _ _ (sync_resource_landed hseen hx)
    · have hseen2 : force = true ∨
          is_synced (sync_resource w dataset force st total r0).1.db dataset res.id = false := by
        rcases hseen with h | h
        · exact Or.inl h
        · have hne : ¬(dataset = dataset ∧ r0.id = res.id) := fun hcon =>
            hnd.1 (hcon.2 ▸ List.mem_map.mpr ⟨res, hmem, rfl⟩)
          exact Or.inr ((sync_resource_synced_ne hne).trans h)
      exact ih _ _ hnd.2 hmem hseen2 hx

lemma resources_loop_synced_ne {w : World} {dataset : String} {force : Bool}
    {d rid : String} (hne : d ≠ dataset) :
    ∀ (rs : List Resource) (st : SyncSt) (total : Nat),
      is_synced (resources_loop w dataset force rs st total).1.db d rid =
        is_synced st.db d rid := by
  intro rs
  induction rs with
  | nil => intro st total; rfl
  | cons r0 rest ih =>
    intro st total
    show is_synced (resources_loop w dataset force rest
        (sync_resource w dataset force st total r0).1
        (sync_resource w dataset force st total r0).2).1.db d rid = _
    rw [ih]
    exact sync_resource_synced_ne (fun hcon => hne hcon.1.symm)

lemma except_isOk_exists {ε α : Type} {e : Except ε α} (h : e.isOk = true) :
    ∃ v, e = .ok v := by
  cases e with
  | error err => simp [Except.isOk, Except.toBool] at h
  | ok v => exact ⟨v, rfl⟩

lemma sync_all_go_ids_mono {w : World} {force : Bool} {x : String} :
    ∀ (ds : List String) (st : SyncSt) (total : Nat), x ∈ store_ids st.db →
      x ∈ store_ids (sync_all_go w force ds st total).1.db := by
  intro ds
  induction ds with
  | nil => intro st total hx; exact hx
  | cons d0 rest ih =>
    intro st total hx
    unfold sync_all_go sync_dataset
    cases w.get_dataset_resources d0 with
    | error e => exact hx
    | ok resources =>
      dsimp only
      exact ih _ _ (resources_loop_ids_mono _ _ _ hx)

lemma sync_all_go_err_none {w : World} {force : Bool} :
    ∀ (ds : List String) (st : SyncSt) (total : Nat),
      (∀ d0 ∈ ds, (w.get_dataset_resources d0).isOk = true) →
      (sync_all_go w force ds st total).2.2 = none := by
  intro ds
  induction ds with
  | nil => intro st total _; rfl
  | cons d0 rest ih =>
    intro st total hlist
    obtain ⟨v, hv⟩ := except_isOk_exists (hlist d0 (List.mem_cons_self d0 rest))
    unfold sync_all_go sync_dataset
    rw [hv]
    dsimp only
    exact ih _ _ (fun d hd => hlist d (List.mem_cons_of_mem d0 hd))

lemma sync_all_go_landed {w : World} {force : Bool} {d : String}
    {resources : List Resource} {res : Resource} {x : String}
    (hres : w.get_dataset_resources d = .ok resources)
    (hnd : ((filter_data_resources resources).map (·.id)).Nodup)
    (hmem : res ∈ filter_data_resources resources)
    (hx : x ∈ body_landed_ids w res) :
    ∀ (ds : List String) (st : SyncSt) (total : Nat),
      (∀ d0 ∈ ds, (w.get_dataset_resources d0).isOk = true) →
      d ∈ ds →
      (force = true ∨ is_synced st.db d res.id = false) →
      x ∈ store_ids (sync_all_go w force ds st total).1.db := by
  intro ds
  induction ds with
  | nil => intro st total _ hd; cases hd
  | cons d0 rest ih =>
    intro st total hlist hd hseen
    obtain ⟨v, hv⟩ := except_isOk_exists (hlist d0 (List.mem_cons_self d0 rest))
    unfold sync_all_go sync_dataset
    rw [hv]
    dsimp only
    by_cases hdd : d = d0
    · subst hdd
      have hveq : v = resources := by
        rw [hv] at hres
        exact Except.ok.inj hres
      subst hveq
      exact sync_all_go_ids_mono rest _ _
        (resources_loop_landed (filter_data_resources v) st 0 hnd hmem hseen hx)
    · have hd2 : d ∈ rest := by
        rcases List.mem_cons.mp hd with h | h
        · exact absurd h hdd
        · exact h
      refine ih _ _ (fun d1 hd1 => hlist d1 (List.mem_cons_of_mem d0 hd1)) hd2 ?_
      rcases hseen with h | h
      · exact Or.inl h
      · exact Or.inr ((resources_loop_synced_ne hdd _ _ _).trans h)

/- ===================== Lemmas: query layer ===================== -/

lemma build_filters_iff (ministro classe desde : Option String) (a : Acordao) :
    build_filters ministro classe desde a = true ↔
      (∀ v, str_truthy ministro = some v → sql_like a.ministro_relator (like_param v) = true) ∧
      (∀ v, str_truthy classe = some v → sql_like a.sigla_classe (like_param v) = true) ∧
      (∀ v, str_truthy desde = some v → sql_text_le v a.data_decisao = true) := by
  unfold build_filters
  cases hm : str_truthy ministro with
  | none => cases hc : str_truthy classe with
    | none => cases hd : str_truthy desde with
      | none => simp
      | some v => simp
    | some v => cases hd : str_truthy desde with
      | none => simp
      | some v2 => simp [and_assoc]
  | some v0 => cases hc : str_truthy classe with
    | none => cases hd : str_truthy desde with
      | none => simp
      | some v => simp [and_assoc]
    | some v => cases hd : str_truthy desde with
      | none => simp [and_assoc]
      | some v2 => simp [and_assoc]

lemma mem_search_rows {fts : Acordao → Bool} {rank : Acordao → Int}
    {store : List Acordao} {ministro classe desde : Option String}
    {limit : Nat} {ord : String}
    (hlimit : (store.filter
      (fun a => fts a && build_filters ministro classe desde a)).length ≤ limit)
    (a : Acordao) :
    a ∈ search_rows fts rank store ministro classe desde limit ord ↔
      a ∈ store.filter (fun a => fts a && build_filters ministro classe desde a) := by
  unfold search_rows
  rw [List.take_of_length_le (by rw [length_sortBy]; exact hlimit)]
  exact mem_sortBy

lemma search_le_total (rank : Acordao → Int) (ord : String) (a b : Acordao) :
    search_le rank ord a b || search_le rank ord b a := by
  unfold search_le
  by_cases h : ord = "data"
  · simp only [h, if_pos]
    rcases le_total b.data_decisao a.data_decisao with h2 | h2 <;> simp [h2]
  · simp only [h, if_neg, ite_false]
    rcases le_total (rank a) (rank b) with h2 | h2 <;> simp [h2]

lemma search_le_trans (rank : Acordao → Int) (ord : String) (a b c : Acordao)
    (h1 : search_le rank ord a b = true) (h2 : search_le rank ord b c = true) :
    search_le rank ord a c = true := by
  unfold search_le at *
  by_cases h : ord = "data"
  · simp only [h, if_pos] at *
    exact decide_eq_true (le_trans (of_decide_eq_true h2) (of_decide_eq_true h1))
  · simp only [h, if_neg, ite_false] at *
    exact decide_eq_true (le_trans (of_decide_eq_true h1) (of_decide_eq_true h2))

/- ===================== Lemmas: normalization and cleanup ===================== -/

lemma normalize_records_none_of_mem {raw : List RawDict} {bad : RawDict}
    (hmem : bad ∈ raw) (hbad : Acordao.from_json bad = none) :
    normalize_records raw = none := by
  induction raw with
  | nil => cases hmem
  | cons r rest ih =>
    rcases List.mem_cons.mp hmem with rfl | hmem
    · simp [normalize_records, hbad]
    · unfold normalize_records
      cases Acordao.from_json r with
      | none => rfl
      | some a => rw [ih hmem]

lemma from_json_none_of_no_id {bad : RawDict} (h : dictGet bad "id" = none) :
    Acordao.from_json bad = none := by
  unfold Acordao.from_json
  rw [h]

lemma zip_loop_files_clean :
    ∀ (entries : List (String × Option (List RawDict))) (db : DB)
      (files : List String) (total : Nat),
      entries.all entry_consumable = true →
      ((entries.map (·.1)).Nodup) →
      (∀ e ∈ entries, e.1 ∉ files) →
      (zip_files_loop db (files ++ entries.map (·.1)) total entries).files = files ∧
      (zip_files_loop db (files ++ entries.map (·.1)) total entries).exn = none := by
  intro entries
  induction entries with
  | nil => intro db files total _ _ _; simp [zip_files_loop]
  | cons e rest ih =>
    intro db files total hcons hnd hdisj
    obtain ⟨path, content⟩ := e
    rw [List.all_cons, Bool.and_eq_true] at hcons
    cases content with
    | none => simp [entry_consumable] at hcons
    | some raw =>
      cases hn : normalize_records raw with
      | none =>
        have := hcons.1
        simp [entry_consumable, hn] at this
      | some records =>
        simp only [zip_files_loop, hn]
        have hpath : path ∉ files := hdisj (path, some raw) (List.mem_cons_self _ _)
        have herase :
            (files ++ ((path, some raw) :: rest).map (·.1)).erase path =
              files ++ rest.map (·.1) := by
          rw [List.map_cons, List.erase_append_right _ hpath, List.erase_cons_head]
        simp only [List.map_cons] at herase ⊢
        rw [herase]
        simp only [List.map_cons, List.nodup_cons] at hnd
        exact ih _ _ _ hcons.2 hnd.2
          (fun e2 he2 => hdisj e2 (List.mem_cons_of_mem _ he2))

lemma strLeChars_iff : ∀ l1 l2 : List Char, strLeChars l1 l2 = true ↔ ¬ l2 < l1 := by
  intro l1
  induction l1 with
  | nil =>
    intro l2
    constructor
    · intro _ h
      nomatch h
    · intro _
      rfl
  | cons c1 t1 ih =>
    intro l2
    cases l2 with
    | nil =>
      constructor
      · intro h
        simp [strLeChars] at h
      · intro h
        exact ((h List.Lex.nil).elim : strLeChars (c1 :: t1) [] = true)
    | cons c2 t2 =>
      by_cases hc : c1 = c2
      · subst hc
        have hstep : strLeChars (c1 :: t1) (c1 :: t2) = strLeChars t1 t2 := by
          simp [strLeChars]
        rw [hstep, ih t2]
        constructor
        · intro h hlt
          cases hlt with
          | cons htl => exact h htl
          | rel h2 => exact lt_irrefl c1 h2
        · intro h hlt
          exact h (List.Lex.cons hlt)
      · have hstep : strLeChars (c1 :: t1) (c2 :: t2) = decide (c1 < c2) := by
          simp [strLeChars, hc]
        rw [hstep]
        constructor
        · intro h hlt
          have h1 : c1 < c2 := of_decide_eq_true h
          cases hlt with
          | cons htl => exact absurd rfl hc
          | rel h2 => exact absurd h2 (asymm h1)
        · intro h
          rcases lt_trichotomy c1 c2 with h2 | h2 | h2
          · exact decide_eq_true h2
          · exact absurd h2 hc
          · exact absurd (List.Lex.rel h2) h

lemma sql_text_le_iff (v s : String) : sql_text_le v s = true ↔ v ≤ s := by
  rw [String.le_iff_toList_le, ← not_lt]
  exact strLeChars_iff v.toList s.toList

/- ===================== Claims ===================== -/

/-- C4: Upsert idempotence and uniqueness — upserting a batch and then the
same batch again leaves exactly one row per distinct identifier and the
same total record count as after the first upsert; both calls report
`len(rows)`; a record re-ingested with an existing identifier fully
replaces the prior version (the stored row *is* the new record — last
write wins, no field-level merge). -/
theorem upsert_idempotent_unique (db : DB) (rs : List Acordao)
    (hnd : (store_ids db).Nodup) :
    (store_ids (upsert_acordaos db rs).1).Nodup ∧
    (∀ r ∈ rs, r.id ∈ store_ids (upsert_acordaos db rs).1) ∧
    (upsert_acordaos (upsert_acordaos db rs).1 rs).1.acordaos.length =
      (upsert_acordaos db rs).1.acordaos.length ∧
    (store_ids (upsert_acordaos (upsert_acordaos db rs).1 rs).1).Nodup ∧
    (upsert_acordaos db rs).2 = rs.length ∧
    (∀ r : Acordao, get_by_id (upsert_acordaos db [r]).1 r.id = some r) := by
  have h1 : (store_ids (upsert_acordaos db rs).1).Nodup := nodup_upsert_batch hnd
  have h2 : ∀ r ∈ rs, r.id ∈ store_ids (upsert_acordaos db rs).1 :=
    fun r hr => id_mem_upsert_batch hr
  refine ⟨h1, h2, ?_, nodup_upsert_batch h1, rfl, ?_⟩
  · exact length_upsert_batch_of_mem h2 h1
  · intro r
    exact get_by_id_upsert1 db.acordaos r db.sync_state

/-- Witness for C4 at a concrete store and batch: the store holds
`recSilva`; the batch re-ingests a modified `recSilva` (same identifier)
plus a new record. -/
theorem upsert_idempotent_unique_witness :
    (store_ids ⟨[recSilva], []⟩).Nodup ∧
    recD1.id ∈ store_ids (upsert_acordaos ⟨[recSilva], []⟩ [recD1, recSilva]).1 ∧
    (upsert_acordaos (upsert_acordaos ⟨[recSilva], []⟩ [recD1, recSilva]).1
        [recD1, recSilva]).1.acordaos.length =
      (upsert_acordaos ⟨[recSilva], []⟩ [recD1, recSilva]).1.acordaos.length ∧
    (store_ids (upsert_acordaos ⟨[recSilva], []⟩ [recD1, recSilva]).1).Nodup ∧
    (upsert_acordaos ⟨[recSilva], []⟩ [recD1, recSilva]).2 = 2 ∧
    get_by_id (upsert_acordaos ⟨[recSilva], []⟩ [recD2]).1 recD2.id = some recD2 := by
  have h := upsert_idempotent_unique ⟨[recSilva], []⟩ [recD1, recSilva] (by decide)
  exact ⟨by decide, h.2.1 recD1 (by decide), h.2.2.1, h.1, h.2.2.2.2.1, h.2.2.2.2.2 recD2⟩

/-- C5 (counterexample): the claim's substring filters are *not*
case-sensitive.  The code's `ministro LIKE '%SILVA%'` clause matches the
record whose judge field is `"Silva"` (SQLite `LIKE` folds ASCII case), so
the search returns it, while `"SILVA"` is not a case-sensitive infix
substring of `"Silva"` — under the claim's reading the result would have
to be empty. -/
theorem filter_case_sensitivity_cex :
    search_rows (fts5_match "dano") rank0 [recSilva] (some "SILVA") none none 20 "data" =
      [recSilva] ∧
    case_sens_contains "SILVA" recSilva.ministro_relator = false ∧
    [recSilva].filter (fun a => fts5_match "dano" a &&
      case_sens_contains "SILVA" a.ministro_relator) = [] := by
  exact ⟨by decide, by decide, by decide⟩

/-- C5 (amended): filter composition — when the cap does not truncate, a
row is returned exactly when it is a full-text match *and* passes every
supplied structured filter, where the reporting-judge and class-code
filters are SQLite `LIKE '%v%'` infix matches (case-insensitive on ASCII
letters, not case-sensitive as the claim stated) and the date filter is
the lexical comparison `desde ≤ data_decisao` on the 8-digit date string
(so `desde = "20200101"` excludes `"20191231"` and includes
`"20200101"`). -/
theorem search_filter_composition (fts : Acordao → Bool) (rank : Acordao → Int)
    (store : List Acordao) (ministro classe desde : Option String)
    (limit : Nat) (ord : String)
    (hlimit : (store.filter
      (fun a => fts a && build_filters ministro classe desde a)).length ≤ limit)
    (a : Acordao) :
    a ∈ search_rows fts rank store ministro classe desde limit ord ↔
      (a ∈ store ∧ fts a = true ∧
       (∀ v, str_truthy ministro = some v → sql_like a.ministro_relator (like_param v) = true) ∧
       (∀ v, str_truthy classe = some v → sql_like a.sigla_classe (like_param v) = true) ∧
       (∀ v, str_truthy desde = some v → v ≤ a.data_decisao)) := by
  rw [mem_search_rows hlimit, List.mem_filter, Bool.and_eq_true, build_filters_iff]
  constructor
  · rintro ⟨hm, hf, h1, h2, h3⟩
    exact ⟨hm, hf, h1, h2, fun v hv => (sql_text_le_iff v a.data_decisao).mp (h3 v hv)⟩
  · rintro ⟨hm, hf, h1, h2, h3⟩
    exact ⟨hm, hf, h1, h2, fun v hv => (sql_text_le_iff v a.data_decisao).mpr (h3 v hv)⟩

/-- Witness for C5 at a concrete store with the date-boundary pair: with
`desde = "20200101"`, the record dated `"20200101"` is returned and the
record dated `"20191231"` is not. -/
theorem search_filter_composition_witness :
    (([recD1, recD2].filter (fun a => fts5_match "dano" a &&
        build_filters none none (some "20200101") a)).length ≤ 20) ∧
    (recD2 ∈ search_rows (fts5_match "dano") rank0 [recD1, recD2] none none
        (some "20200101") 20 "data" ↔
      (recD2 ∈ [recD1, recD2] ∧ fts5_match "dano" recD2 = true ∧
       (∀ v, str_truthy (none : Option String) = some v →
          sql_like recD2.ministro_relator (like_param v) = true) ∧
       (∀ v, str_truthy (none : Option String) = some v →
          sql_like recD2.sigla_classe (like_param v) = true) ∧
       (∀ v, str_truthy (some "20200101") = some v → v ≤ recD2.data_decisao))) ∧
    recD2 ∈ search_rows (fts5_match "dano") rank0 [recD1, recD2] none none
      (some "20200101") 20 "data" ∧
    recD1 ∉ search_rows (fts5_match "dano") rank0 [recD1, recD2] none none
      (some "20200101") 20 "data" := by
  refine ⟨by decide, ?_, by decide, by decide⟩
  exact search_filter_composition (fts5_match "dano") rank0 [recD1, recD2]
    none none (some "20200101") 20 "data" (by decide) recD2

/-- C6: Ordering modes — exactly one ordering mode is active per request
(the `if` on the order argument, whose source default is `"data"`, i.e.
recency); at most `limit` rows are returned; in the default recency mode
results carry non-increasing decision-date strings, and in the relevance
mode they carry non-decreasing engine rank scores (`bm25` is more negative
for better matches, so ascending rank puts best matches first). -/
theorem search_ordering_modes (fts : Acordao → Bool) (rank : Acordao → Int)
    (store : List Acordao) (ministro classe desde : Option String)
    (limit : Nat) (ord : String) :
    (search_rows fts rank store ministro classe desde limit ord).length ≤ limit ∧
    (ord = "data" →
      (search_rows fts rank store ministro classe desde limit ord).Pairwise
        (fun a b => b.data_decisao ≤ a.data_decisao)) ∧
    (ord ≠ "data" →
      (search_rows fts rank store ministro classe desde limit ord).Pairwise
        (fun a b => rank a ≤ rank b)) := by
  have hp : (search_rows fts rank store ministro classe desde limit ord).Pairwise
      (fun a b => search_le rank ord a b = true) := by
    have h1 := pairwise_sortBy (search_le_total rank ord) (search_le_trans rank ord)
      (store.filter (fun a => fts a && build_filters ministro classe desde a))
    exact List.Pairwise.sublist (List.take_sublist limit _) h1
  refine ⟨?_, ?_, ?_⟩
  · show ((sortBy (search_le rank ord) _).take limit).length ≤ limit
    rw [List.length_take]
    exact min_le_left _ _
  · intro ho
    refine hp.imp ?_
    intro a b hab
    rw [search_le, if_pos ho] at hab
    exact of_decide_eq_true hab
  · intro ho
    refine hp.imp ?_
    intro a b hab
    rw [search_le, if_neg ho] at hab
    exact of_decide_eq_true hab

/-- Witness for C6: both ordering modes exercised on a concrete
three-record store. -/
theorem search_ordering_modes_witness :
    (search_rows (fts5_match "dano") rank0 [recD1, recSilva, recD2] none none none
      20 "data").Pairwise (fun a b => b.data_decisao ≤ a.data_decisao) ∧
    (search_rows (fts5_match "dano") rank0 [recD1, recSilva, recD2] none none none
      20 "palavra").Pairwise (fun a b => rank0 a ≤ rank0 b) ∧
    (search_rows (fts5_match "dano") rank0 [recD1, recSilva, recD2] none none none
      2 "data").length ≤ 2 := by
  refine ⟨?_, ?_, ?_⟩
  · exact (search_ordering_modes (fts5_match "dano") rank0 [recD1, recSilva, recD2]
      none none none 20 "data").2.1 rfl
  · exact (search_ordering_modes (fts5_match "dano") rank0 [recD1, recSilva, recD2]
      none none none 20 "palavra").2.2 (by decide)
  · exact (search_ordering_modes (fts5_match "dano") rank0 [recD1, recSilva, recD2]
      none none none 2 "data").1

/-- C7 (counterexample): an empty full-text query string *is* an error —
the code passes it verbatim to `acordaos_fts MATCH ?` and FTS5 rejects a
token-free query with a syntax error, which `conn.execute` surfaces as a
raised `sqlite3.OperationalError`; the call does not return an empty
result sequence. -/
theorem empty_query_error_cex :
    search [recSilva] rank0 "" none none none 20 "data" = .error .ftsSyntaxError ∧
    search [recSilva] rank0 "" none none none 20 "data" ≠ .ok [] := by
  constructor
  · rfl
  · intro h
    rw [show search [recSilva] rank0 "" none none none 20 "data" =
        Except.error SqlError.ftsSyntaxError from rfl] at h
    exact Except.noConfusion h

/-- C7 (amended): an empty query string raises the engine's query error
(it is caught only at the CLI boundary, exit code 1); a well-formed plain
query that matches no records is not an error and yields the empty result
sequence. -/
theorem empty_query_behavior :
    (∀ (store : List Acordao) (rank : Acordao → Int) (m c ds : Option String)
       (limit : Nat) (ord : String),
      search store rank "" m c ds limit ord = .error .ftsSyntaxError) ∧
    (∀ (store : List Acordao) (rank : Acordao → Int) (q : String)
       (m c ds : Option String) (limit : Nat) (ord : String),
      ftsPlainQuery q = true → (∀ a ∈ store, fts5_match q a = false) →
      search store rank q m c ds limit ord = .ok []) := by
  constructor
  · intro store rank m c ds limit ord
    have h : ftsPlainQuery "" = false := by decide
    simp [search, h]
  · intro store rank q m c ds limit ord hq hno
    have hfil : store.filter (fun a => fts5_match q a && build_filters m c ds a) = [] := by
      rw [List.filter_eq_nil_iff]
      intro a ha
      simp [hno a ha]
    simp [search, hq, search_rows, hfil, sortBy]

/-- Witness for C7: the empty query errors on a concrete store, and the
plain query `"zzz"`, which matches no record of the store, yields `ok []`. -/
theorem empty_query_behavior_witness :
    search [recSilva] rank0 "" none none none 5 "data" = .error .ftsSyntaxError ∧
    search [recD1, recSilva] rank0 "zzz" none none none 20 "data" = .ok [] := by
  refine ⟨empty_query_behavior.1 [recSilva] rank0 none none none 5 "data", ?_⟩
  exact empty_query_behavior.2 [recD1, recSilva] rank0 "zzz" none none none 20 "data"
    (by decide) (by decide)

/-- C10: an empty-string value for any of the three structured filters is
the identity — `_build_filters` guards each clause with Python truthiness
(`if ministro:` etc.), so `""` generates no clause, and both `search` and
`search_stats` behave exactly as if the filter were absent. -/
theorem empty_filter_identity :
    ∀ (store : List Acordao) (rank : Acordao → Int) (q : String)
      (m c ds : Option String) (limit : Nat) (ord : String),
      search store rank q (some "") c ds limit ord =
        search store rank q none c ds limit ord ∧
      search store rank q m (some "") ds limit ord =
        search store rank q m none ds limit ord ∧
      search store rank q m c (some "") limit ord =
        search store rank q m c none limit ord ∧
      search_stats store q (some "") c ds = search_stats store q none c ds ∧
      search_stats store q m (some "") ds = search_stats store q m none ds ∧
      search_stats store q m c (some "") = search_stats store q m c none := by
  intro store rank q m c ds limit ord
  exact ⟨rfl, rfl, rfl, rfl, rfl, rfl⟩

/-- C1: Partial-failure isolation — on a run whose dataset listings
succeed, no exception escapes `sync_all` (every per-resource failure is
caught inside the per-resource loop), and every data resource that is due
for processing (forced, or with no pre-existing marker) gets its
successfully fetched-and-normalized records into the final store —
independently of any other resource of any dataset raising at its fetch,
parse, normalize, upsert or mark step, since `body_landed_ids` depends
only on the world and the resource itself. -/
theorem sync_partial_failure_isolation (w : World) (flt : Option String)
    (force : Bool) (st0 : SyncSt)
    (hlist : ∀ d0 ∈ scope_datasets flt, (w.get_dataset_resources d0).isOk = true)
    (d : String) (hd : d ∈ scope_datasets flt)
    (resources : List Resource)
    (hres : w.get_dataset_resources d = .ok resources)
    (hnd : ((filter_data_resources resources).map (·.id)).Nodup)
    (res : Resource) (hmem : res ∈ filter_data_resources resources)
    (hunseen : force = true ∨ is_synced st0.db d res.id = false) :
    (sync_all w flt force st0).2.2 = none ∧
    ∀ x ∈ body_landed_ids w res, x ∈ store_ids (sync_all w flt force st0).1.db := by
  constructor
  · show (sync_all_go w force (scope_datasets flt) ⟨init_db st0.db, st0.files⟩ 0).2.2 = none
    exact sync_all_go_err_none _ _ _ hlist
  · intro x hx
    show x ∈ store_ids (sync_all_go w force (scope_datasets flt) ⟨init_db st0.db, st0.files⟩ 0).1.db
    exact sync_all_go_landed hres hnd hmem hx _ _ _ hlist hd hunseen

/-- Witness for C1: in `worldPartialFail` the first resource's fetch
raises after retry exhaustion, yet the run completes without an escaping
exception and the second resource's record (`"g2"`) lands in the store. -/
theorem sync_partial_failure_isolation_witness :
    (worldPartialFail.download_json resFail.url = .error .upstream) ∧
    (sync_all worldPartialFail (some "dA") false emptySt).2.2 = none ∧
    "g2" ∈ store_ids (sync_all worldPartialFail (some "dA") false emptySt).1.db := by
  have h := sync_partial_failure_isolation worldPartialFail (some "dA") false emptySt
    (by decide) "dA" (by decide) [resFail, resOk] rfl (by decide) resOk (by decide)
    (Or.inr (by decide))
  exact ⟨rfl, h.1, h.2 "g2" (by decide)⟩

/-- C2 (counterexample): a malformed record is *not* skipped individually.
In `worldMalformed` the single JSON resource's payload is
`[rawGood1, rawNoId, rawGood2]`; the comprehension
`[Acordao.from_json(r) for r in raw]` raises `KeyError` on the middle
record, so the whole resource fails: neither `"g1"` nor `"g2"` — the
otherwise well-formed records the claim says are still upserted — reaches
the store, and no marker is written (the failure stays resource-scoped:
the run itself completes). -/
theorem malformed_record_skip_cex :
    dictGet rawNoId "id" = none ∧
    (sync_all worldMalformed (some "dA") false emptySt).2.2 = none ∧
    "g1" ∉ store_ids (sync_all worldMalformed (some "dA") false emptySt).1.db ∧
    "g2" ∉ store_ids (sync_all worldMalformed (some "dA") false emptySt).1.db ∧
    is_synced (sync_all worldMalformed (some "dA") false emptySt).1.db "dA" "r1" = false := by
  exact ⟨rfl, by decide, by decide, by decide, by decide⟩

/-- C2 (amended): a raw record lacking the identifier key fails its own
normalization, and — because the code normalizes a payload with a single
list comprehension — the whole payload's normalization raises: for a JSON
resource carrying such a payload the `try` body performs no upsert at all,
leaves the store untouched and terminates with the `KeyError`; the
malformed record is batch-fatal to its resource, not individually
skipped. -/
theorem malformed_record_batch_failure (raw : List RawDict) (bad : RawDict)
    (hmem : bad ∈ raw) (hnoid : dictGet bad "id" = none) :
    normalize_records raw = none ∧
    ∀ (w : World) (db : DB) (files : List String) (res : Resource),
      (asciiUpper res.format == "ZIP") = false →
      w.download_json res.url = .ok raw →
      (resource_body w db files res).db = db ∧
      (resource_body w db files res).upserted = 0 ∧
      (resource_body w db files res).exn = some .keyError := by
  have hn : normalize_records raw = none :=
    normalize_records_none_of_mem hmem (from_json_none_of_no_id hnoid)
  refine ⟨hn, ?_⟩
  intro w db files res hfmt hjson
  unfold resource_body
  rw [hfmt, if_neg Bool.false_ne_true, hjson]
  dsimp only
  rw [hn]
  exact ⟨rfl, rfl, rfl⟩

/-- Witness for C2's amended statement at the concrete malformed payload. -/
theorem malformed_record_batch_failure_witness :
    normalize_records [rawGood1, rawNoId, rawGood2] = none ∧
    (resource_body worldMalformed ⟨[], []⟩ [] resFail).db = ⟨[], []⟩ ∧
    (resource_body worldMalformed ⟨[], []⟩ [] resFail).upserted = 0 ∧
    (resource_body worldMalformed ⟨[], []⟩ [] resFail).exn = some .keyError := by
  have h := malformed_record_batch_failure [rawGood1, rawNoId, rawGood2] rawNoId
    (List.mem_cons_of_mem _ (List.mem_cons_self _ _)) rfl
  have h2 := h.2 worldMalformed ⟨[], []⟩ [] resFail (by decide) rfl
  exact ⟨h.1, h2.1, h2.2.1, h2.2.2⟩

/-- C3 (counterexample): a fetch error raised after retry exhaustion while
*listing* a dataset's resources is *not* caught inside the sync engine —
`client.get_dataset_resources` runs outside the per-resource `try`, so the
exception escapes `sync_dataset` and `sync_all`, aborting the remaining
datasets: in `worldListingFail` the first catalog dataset's listing fails,
the run ends with the exception, and the perfectly good record `"g2"` of
the *second* dataset never reaches the store. -/
theorem upstream_listing_error_cex :
    (sync_all worldListingFail none false emptySt).2.2 = some PyExn.upstream ∧
    worldListingFail.get_dataset_resources "espelhos-de-acordaos-primeira-secao" =
      .ok [resOk] ∧
    "g2" ∉ store_ids (sync_all worldListingFail none false emptySt).1.db := by
  exact ⟨by decide, rfl, by decide⟩

/-- C3 (amended): fetch errors of the per-resource pipeline (download of a
JSON or ZIP payload, after retry exhaustion) are caught at resource
granularity inside `sync_dataset`'s loop and never abort the run: a run
whose dataset *listings* all succeed finishes without an escaping
exception, whatever the per-resource fetch outcomes; a listing failure,
however, propagates out of the Sync Engine and aborts the remaining
datasets. -/
theorem resource_fetch_error_containment (w : World) (flt : Option String)
    (force : Bool) (st0 : SyncSt)
    (hlist : ∀ d0 ∈ scope_datasets flt, (w.get_dataset_resources d0).isOk = true) :
    (sync_all w flt force st0).2.2 = none := by
  show (sync_all_go w force (scope_datasets flt) ⟨init_db st0.db, st0.files⟩ 0).2.2 = none
  exact sync_all_go_err_none _ _ _ hlist

/-- Witness for C3's amended statement: `worldPartialFail` has a resource
whose download raises after retry exhaustion, yet the run completes. -/
theorem resource_fetch_error_containment_witness :
    worldPartialFail.download_json resFail.url = .error .upstream ∧
    (sync_all worldPartialFail (some "dA") false emptySt).2.2 = none := by
  exact ⟨rfl, resource_fetch_error_containment worldPartialFail (some "dA") false emptySt
    (by decide)⟩

/-- C8 (counterexample): extracted files are *not* cleaned up on the
failure path — `json_file.unlink` is not in a `finally`, so when a file's
consumption raises, that file (and any later one) survives the resource's
processing: in `worldZipFail` the first extracted file is consumed (its
record `"g1"` lands, the file is unlinked) but the second file fails to
parse and is still on disk when the run ends. -/
theorem extracted_file_cleanup_cex :
    (sync_all worldZipFail (some "dZ") false emptySt).1.files = ["f2.json"] ∧
    (sync_all worldZipFail (some "dZ") false emptySt).2.2 = none ∧
    "g1" ∈ store_ids (sync_all worldZipFail (some "dZ") false emptySt).1.db := by
  exact ⟨by decide, by decide, by decide⟩

/-- C8 (amended): extracted `.json` files are deleted after consumption on
the *success* path only — when every extracted member of a ZIP resource
parses and normalizes, the resource's body deletes each file after its
upsert and finishes with the working directory exactly as it found it; a
failing member, by contrast, persists together with all later members (the
counterexample). -/
theorem extracted_file_cleanup_success (w : World) (db : DB) (files : List String)
    (res : Resource) (entries : List (String × Option (List RawDict)))
    (hfmt : (asciiUpper res.format == "ZIP") = true)
    (hzip : w.download_and_extract_zip res.url = .ok entries)
    (hcons : entries.all entry_consumable = true)
    (hnd : (entries.map (·.1)).Nodup)
    (hdisj : ∀ e ∈ entries, e.1 ∉ files) :
    (resource_body w db files res).files = files ∧
    (resource_body w db files res).exn = none := by
  unfold resource_body
  rw [if_pos hfmt, hzip]
  exact zip_loop_files_clean entries db files 0 hcons hnd hdisj

/-- Witness for C8's amended statement: the all-good ZIP world leaves the
working directory empty again after the resource is processed. -/
theorem extracted_file_cleanup_success_witness :
    (resource_body worldZipOk ⟨[], []⟩ [] resZip).files = [] ∧
    (resource_body worldZipOk ⟨[], []⟩ [] resZip).exn = none := by
  exact extracted_file_cleanup_success worldZipOk ⟨[], []⟩ [] resZip
    [("f1.json", some [rawGood1]), ("f2.json", some [rawGood2])]
    (by decide) rfl (by decide) (by decide) (by decide)

lemma resources_loop_landed_force {w : World} {dataset : String}
    {res : Resource} {x : String} :
    ∀ (rs : List Resource) (st : SyncSt) (total : Nat), res ∈ rs →
      x ∈ body_landed_ids w res →
      x ∈ store_ids (resources_loop w dataset true rs st total).1.db := by
  intro rs
  induction rs with
  | nil => intro st total hmem; cases hmem
  | cons r0 rest ih =>
    intro st total hmem hx
    rcases List.mem_cons.mp hmem with rfl | hmem
    · exact resources_loop_ids_mono rest _ _ (sync_resource_landed (Or.inl rfl) hx)
    · exact ih _ _ hmem hx

lemma sync_all_go_landed_force {w : World} {d : String}
    {resources : List Resource} {res : Resource} {x : String}
    (hres : w.get_dataset_resources d = .ok resources)
    (hmem : res ∈ filter_data_resources resources)
    (hx : x ∈ body_landed_ids w res) :
    ∀ (ds : List String) (st : SyncSt) (total : Nat),
      (∀ d0 ∈ ds, (w.get_dataset_resources d0).isOk = true) →
      d ∈ ds →
      x ∈ store_ids (sync_all_go w true ds st total).1.db := by
  intro ds
  induction ds with
  | nil => intro st total _ hd; cases hd
  | cons d0 rest ih =>
    intro st total hlist hd
    obtain ⟨v, hv⟩ := except_isOk_exists (hlist d0 (List.mem_cons_self d0 rest))
    unfold sync_all_go sync_dataset
    rw [hv]
    dsimp only
    by_cases hdd : d = d0
    · subst hdd
      have hveq : v = resources := by
        rw [hv] at hres
        exact Except.ok.inj hres
      subst hveq
      exact sync_all_go_ids_mono rest _ _
        (resources_loop_landed_force (filter_data_resources v) st 0 hmem hx)
    · have hd2 : d ∈ rest := by
        rcases List.mem_cons.mp hd with h | h
        · exact absurd h hdd
        · exact h
      exact ih _ _ (fun d1 hd1 => hlist d1 (List.mem_cons_of_mem d0 hd1)) hd2

/-- C9: Force semantics — with the force flag, the CLI first clears every
sync marker of the targeted scope (`db.clear_sync_state` before the run),
and the run then bypasses the `isSynced` short-circuit (`if not force and
db.is_synced(...)`): *every* data resource of every targeted dataset is
fetched and its successfully normalized records are upserted, entirely
regardless of whatever markers existed beforehand. -/
theorem force_resync_semantics (w : World) (dflt : Option String) (st0 : SyncSt)
    (hvalid : str_truthy dflt = none ∨
      ∃ dd, str_truthy dflt = some dd ∧ dd ∈ DATASETS)
    (hlist : ∀ d0 ∈ scope_datasets dflt, (w.get_dataset_resources d0).isOk = true) :
    cli_sync w dflt true st0 =
      .ok (sync_all w dflt true ⟨clear_sync_state st0.db dflt, st0.files⟩) ∧
    (∀ d0 ∈ scope_datasets dflt, ∀ rid,
      is_synced (clear_sync_state st0.db dflt) d0 rid = false) ∧
    (sync_all w dflt true ⟨clear_sync_state st0.db dflt, st0.files⟩).2.2 = none ∧
    (∀ d0 ∈ scope_datasets dflt, ∀ resources,
      w.get_dataset_resources d0 = .ok resources →
      ∀ res ∈ filter_data_resources resources, ∀ x ∈ body_landed_ids w res,
        x ∈ store_ids
          (sync_all w dflt true ⟨clear_sync_state st0.db dflt, st0.files⟩).1.db) := by
  refine ⟨?_, ?_, ?_, ?_⟩
  · unfold cli_sync
    rcases hvalid with hv | ⟨dd, hv, hdd⟩
    · rw [hv]
      rfl
    · rw [hv]
      dsimp only
      have hc : DATASETS.contains dd = true := by
        simpa using hdd
      rw [if_pos hc, if_pos rfl]
  · intro d0 hd0 rid
    unfold scope_datasets at hd0
    unfold clear_sync_state
    cases hv : str_truthy dflt with
    | none => simp [is_synced]
    | some dd =>
      rw [hv] at hd0
      simp only [List.mem_singleton] at hd0
      subst hd0
      simp only [is_synced, List.any_filter]
      rw [List.any_eq_false]
      intro m _
      by_cases hm : m.dataset = d0
      · simp [hm]
      · simp [beq_eq_false_iff_ne.mpr hm]
  · show (sync_all_go w true (scope_datasets dflt)
      ⟨init_db (clear_sync_state st0.db dflt), st0.files⟩ 0).2.2 = none
    exact sync_all_go_err_none _ _ _ hlist
  · intro d0 hd0 resources hres res hmemr x hx
    show x ∈ store_ids (sync_all_go w true (scope_datasets dflt)
      ⟨init_db (clear_sync_state st0.db dflt), st0.files⟩ 0).1.db
    exact sync_all_go_landed_force hres hmemr hx _ _ _ hlist hd0

/-- Witness for C9: the store starts with a marker for `(ds1, "r2")` — the
very resource `resOk` of the targeted dataset — and the forced run clears
it and re-fetches and re-upserts the resource's record `"g2"` anyway. -/
theorem force_resync_semantics_witness :
    is_synced markedSt.db ds1 "r2" = true ∧
    cli_sync worldForce (some ds1) true markedSt =
      .ok (sync_all worldForce (some ds1) true
        ⟨clear_sync_state markedSt.db (some ds1), markedSt.files⟩) ∧
    is_synced (clear_sync_state markedSt.db (some ds1)) ds1 "r2" = false ∧
    (sync_all worldForce (some ds1) true
      ⟨clear_sync_state markedSt.db (some ds1), markedSt.files⟩).2.2 = none ∧
    "g2" ∈ store_ids (sync_all worldForce (some ds1) true
      ⟨clear_sync_state markedSt.db (some ds1), markedSt.files⟩).1.db := by
  have h := force_resync_semantics worldForce (some ds1) markedSt
    (Or.inr ⟨ds1, rfl, by decide⟩) (by decide)
  refine ⟨by decide, h.1, ?_, h.2.2.1, ?_⟩
  · exact h.2.1 ds1 (by decide) "r2"
  · exact h.2.2.2 ds1 (by decide) [resOk] rfl resOk (by decide) "g2" (by decide)
